import Mathlib

/-!
Shallow embedding of the order-workflow engine of the Digital-Marketplace
repository (src/src/hooks/useOrders.ts and the cart hook), together with the
store schema from the SQL migration.  Store tables are lists of rows; every
store call is modelled explicitly, and an `Env` records, per call, whether the
external store reports an error (the supabase client returns `{ data, error }`
and never throws by itself; only the `if (error) throw error` checks in the
source convert store errors into exceptions).  Prices are modelled as rationals
(`numeric(10,2)` columns), quantities and stock as integers.
-/

/-- A product row, restricted to the fields the workflow reads
(`id`, `seller_id`, `price`, `stock_quantity`). -/
structure Product where
  id : String
  seller_id : String
  price : ℚ
  stock_quantity : Int
deriving DecidableEq

/-- A cart item as passed to `createOrder`: the cart row joined with its
product (`item.product_id`, `item.quantity`, `item.product`). -/
structure CartItem where
  id : String
  product_id : String
  quantity : Int
  product : Product
deriving DecidableEq

/-- A `cart_items` table row. -/
structure CartRow where
  id : String
  buyer_id : String
  product_id : String
  quantity : Int
deriving DecidableEq

/-- An `orders` table row, restricted to the fields the workflow writes.
`status` defaults to "pending" in the schema; the insert does not set it. -/
structure OrderRow where
  id : Nat
  order_number : String
  buyer_id : String
  seller_id : String
  total_amount : ℚ
  status : String
  shipping_address : String
  notes : Option String
deriving DecidableEq

/-- An `order_items` table row. -/
structure OrderItemRow where
  order_id : Nat
  product_id : String
  quantity : Int
  unit_price : ℚ
  total_price : ℚ
deriving DecidableEq

/-- A `payment_receipts` table row (fields written by `uploadPaymentReceipt`;
`status` defaults to "pending" in the schema). -/
structure ReceiptRow where
  order_id : Nat
  receipt_url : String
  uploaded_by : String
  status : String
deriving DecidableEq

/-- The relational store visible to the workflow. -/
structure Store where
  orders : List OrderRow
  order_items : List OrderItemRow
  products : List Product
  cart_items : List CartRow
  payment_receipts : List ReceiptRow
deriving DecidableEq

/-- A store error value as seen by a `catch` block: its message, and whether
the thrown value is a JavaScript `Error` instance (the source checks
`err instanceof Error`). -/
structure StoreErr where
  message : String
  isErrorInstance : Bool
deriving DecidableEq

/-- Outcome schedule for the store calls issued by one workflow invocation.
Calls of each kind are numbered from 0 in issue order; `none` means the call
succeeds.  `rpcOrderNumber g` is the value returned by the g-th
`generate_order_number` rpc (`none` = null data; the source never checks this
call's error).  `nowMs` is the value of `Date.now()`. -/
structure Env where
  rpcOrderNumber : Nat → Option String
  insertOrderErr : Nat → Option StoreErr
  insertItemsErr : Nat → Option StoreErr
  updateStockErr : Nat → Option StoreErr
  deleteCartErr : Option StoreErr
  updateStatusErr : Option StoreErr
  insertReceiptErr : Option StoreErr
  nowMs : Nat

deriving instance DecidableEq for Except

/-- `catch (err) { throw new Error(err instanceof Error ? err.message : fallback) }`:
the surfaced message is the underlying one when the thrown value is an `Error`
instance, and the bare fallback text otherwise. -/
def catchMessage (fallback : String) (e : StoreErr) : String :=
  if e.isErrorInstance then e.message else fallback

/-- JavaScript `v || fallback` on a nullable string: null and the empty string
are falsy. -/
def jsOrString (v : Option String) (fallback : String) : String :=
  match v with
  | none => fallback
  | some s => if s = "" then fallback else s

/-- One step of the `reduce` that groups cart items by `item.product.seller_id`:
append the item to its seller's bucket, or open a new bucket at the end.
Buckets are kept in first-appearance order, matching `Object.entries` on an
object with non-index string keys (seller ids are uuids). -/
def insertGrouped (acc : List (String × List CartItem)) (item : CartItem) :
    List (String × List CartItem) :=
  match acc with
  | [] => [(item.product.seller_id, [item])]
  | (k, v) :: rest =>
    if k = item.product.seller_id then (k, v ++ [item]) :: rest
    else (k, v) :: insertGrouped rest item

/-- `cartItems.reduce(...)` + `Object.entries`: the per-seller groups, in
first-appearance order of the seller ids. -/
def groupBySeller (items : List CartItem) : List (String × List CartItem) :=
  items.foldl insertGrouped []

/-- `items.reduce((sum, item) => sum + item.product.price * item.quantity, 0)`. -/
def groupTotal (items : List CartItem) : ℚ :=
  items.foldl (fun sum it => sum + it.product.price * (it.quantity : ℚ)) 0

/-- The order row inserted for one seller group: `g` is the group index (used
to look up the rpc outcome), `oid` the fresh row id.  The order number is
`orderNumberData || 'ORD-' + Date.now()`. -/
def mkOrderRow (env : Env) (uid ship : String) (notes : Option String)
    (g oid : Nat) (sellerId : String) (items : List CartItem) : OrderRow :=
  { id := oid
    order_number := jsOrString (env.rpcOrderNumber g)
      (String.append "ORD-" (toString env.nowMs))
    buyer_id := uid
    seller_id := sellerId
    total_amount := groupTotal items
    status := "pending"
    shipping_address := ship
    notes := notes }

/-- The order-item rows inserted for one group:
`items.map(item => ({ order_id, product_id, quantity, unit_price, total_price }))`. -/
def mkOrderItems (oid : Nat) (items : List CartItem) : List OrderItemRow :=
  items.map (fun it =>
    { order_id := oid
      product_id := it.product_id
      quantity := it.quantity
      unit_price := it.product.price
      total_price := it.product.price * (it.quantity : ℚ) })

/-- `update products set stock_quantity = v where id = pid`. -/
def stockWrite (ps : List Product) (pid : String) (v : Int) : List Product :=
  ps.map (fun p => if p.id = pid then { p with stock_quantity := v } else p)

/-- The per-item stock-update loop.  Each write sets the stock to
`Math.max(0, item.product.stock_quantity - item.quantity)` (the snapshot held
in the cart item, clamped at zero).  The source never checks this call's
error, so a failing write is skipped and the loop continues; the call counter
advances either way. -/
def applyStockUpdates (env : Env) : List Product → Nat → List CartItem →
    List Product × Nat
  | ps, s, [] => (ps, s)
  | ps, s, it :: rest =>
    applyStockUpdates env
      (match env.updateStockErr s with
        | some _ => ps
        | none => stockWrite ps it.product_id
            (max 0 (it.product.stock_quantity - it.quantity)))
      (s + 1) rest

/-- The `for (const [sellerId, items] of Object.entries(ordersBySeller))` loop
of `createOrder`: per group, rpc for an order number, insert the order row
(fresh id; on store error the exception is caught and the whole call fails),
insert its order-item rows (same), then run the stock updates.  `g` counts
groups, `s` counts stock-update calls, `acc` is `createdOrders`. -/
def processGroups (env : Env) (uid ship : String) (notes : Option String) :
    List (String × List CartItem) → Store → Nat → Nat → List OrderRow →
    Store × Except String (List OrderRow)
  | [], st, _, _, acc => (st, Except.ok acc)
  | (sellerId, items) :: rest, st, g, s, acc =>
    match env.insertOrderErr g with
    | some e => (st, Except.error (catchMessage "Failed to create order" e))
    | none =>
      let order := mkOrderRow env uid ship notes g st.orders.length sellerId items
      let st1 := { st with orders := st.orders ++ [order] }
      match env.insertItemsErr g with
      | some e => (st1, Except.error (catchMessage "Failed to create order" e))
      | none =>
        let st2 := { st1 with
          order_items := st1.order_items ++ mkOrderItems order.id items }
        let r := applyStockUpdates env st2.products s items
        processGroups env uid ship notes rest { st2 with products := r.1 }
          (g + 1) r.2 (acc ++ [order])

/-- `createOrder(cartItems, shippingAddress, notes)`: reject unauthenticated
callers, group the cart by seller, process each group, then issue
`delete from cart_items where buyer_id = user.id` — whose error is never
checked, so a failing delete is skipped and the call still succeeds.  The
trailing `fetchOrders()` is a read that catches its own errors and does not
change the store. -/
def createOrder (env : Env) (user : Option String) (st : Store)
    (cartItems : List CartItem) (shipping : String) (notes : Option String) :
    Store × Except String (List OrderRow) :=
  match user with
  | none => (st, Except.error "User not authenticated")
  | some uid =>
    match processGroups env uid shipping notes (groupBySeller cartItems) st 0 0 [] with
    | (st', Except.error m) => (st', Except.error m)
    | (st', Except.ok created) =>
      match env.deleteCartErr with
      | some _ => (st', Except.ok created)
      | none =>
        ({ st' with cart_items := st'.cart_items.filter (fun c => c.buyer_id != uid) },
          Except.ok created)

/-- `updateOrderStatus(orderId, status)`: unconditional status write, error
checked and wrapped. -/
def updateOrderStatus (env : Env) (st : Store) (orderId : Nat) (status : String) :
    Store × Except String Unit :=
  match env.updateStatusErr with
  | some e => (st, Except.error (catchMessage "Failed to update order status" e))
  | none =>
    ({ st with orders := st.orders.map (fun o =>
        if o.id = orderId then { o with status := status } else o) },
      Except.ok ())

/-- `uploadPaymentReceipt(orderId, receiptUrl)`: authentication check, then one
receipt insert (status defaults to "pending"), error checked and wrapped. -/
def uploadPaymentReceipt (env : Env) (user : Option String) (st : Store)
    (orderId : Nat) (receiptUrl : String) : Store × Except String Unit :=
  match user with
  | none => (st, Except.error "User not authenticated")
  | some uid =>
    match env.insertReceiptErr with
    | some e => (st, Except.error (catchMessage "Failed to upload receipt" e))
    | none =>
      ({ st with payment_receipts := st.payment_receipts ++
          [{ order_id := orderId, receipt_url := receiptUrl,
             uploaded_by := uid, status := "pending" }] },
        Except.ok ())

/-- Outcome schedule for the cart hook's store calls. -/
structure CartEnv where
  updateCartErr : Option StoreErr
  removeCartErr : Option StoreErr

/-- `removeFromCart(cartItemId)`: `delete from cart_items where id = cartItemId`,
error checked and wrapped.  The trailing `fetchCartItems()` is a read. -/
def removeFromCart (env : CartEnv) (st : Store) (cartItemId : String) :
    Store × Except String Unit :=
  match env.removeCartErr with
  | some e => (st, Except.error (catchMessage "Failed to remove from cart" e))
  | none =>
    ({ st with cart_items := st.cart_items.filter (fun c => c.id != cartItemId) },
      Except.ok ())

/-- `updateQuantity(cartItemId, quantity)`: `if (quantity <= 0) return
removeFromCart(cartItemId)`, otherwise an update of the row's quantity. -/
def updateQuantity (env : CartEnv) (st : Store) (cartItemId : String)
    (quantity : Int) : Store × Except String Unit :=
  if quantity ≤ 0 then removeFromCart env st cartItemId
  else
    match env.updateCartErr with
    | some e => (st, Except.error (catchMessage "Failed to update quantity" e))
    | none =>
      ({ st with cart_items := st.cart_items.map (fun c =>
          if c.id = cartItemId then { c with quantity := quantity } else c) },
        Except.ok ())

/-- The order rows created by a failure-free run over a group list, `g` the
first group index, `oid` the first fresh order id. -/
def benignOrders (env : Env) (uid ship : String) (notes : Option String) :
    List (String × List CartItem) → Nat → Nat → List OrderRow
  | [], _, _ => []
  | (k, its) :: rest, g, oid =>
    mkOrderRow env uid ship notes g oid k its ::
      benignOrders env uid ship notes rest (g + 1) (oid + 1)

/-- The order-item rows created by a failure-free run over a group list,
`oid` the first fresh order id. -/
def benignItems : List (String × List CartItem) → Nat → List OrderItemRow
  | [], _ => []
  | (_, its) :: rest, oid => mkOrderItems oid its ++ benignItems rest (oid + 1)

theorem groupTotal_foldl (its : List CartItem) :
    ∀ a : ℚ, its.foldl (fun sum it => sum + it.product.price * (it.quantity : ℚ)) a
      = a + (its.map (fun it => it.product.price * (it.quantity : ℚ))).sum := by
  induction its with
  | nil => intro a; simp
  | cons it rest ih => intro a; simp [ih, add_assoc]

theorem groupTotal_eq_sum (its : List CartItem) :
    groupTotal its = (its.map (fun it => it.product.price * (it.quantity : ℚ))).sum := by
  simpa using groupTotal_foldl its 0

theorem insertGrouped_keys (acc : List (String × List CartItem)) (a : CartItem) :
    (insertGrouped acc a).map Prod.fst =
      if a.product.seller_id ∈ acc.map Prod.fst then acc.map Prod.fst
      else acc.map Prod.fst ++ [a.product.seller_id] := by
  induction acc with
  | nil => simp [insertGrouped]
  | cons q rest ih =>
    obtain ⟨k, v⟩ := q
    by_cases hk : k = a.product.seller_id
    · simp [insertGrouped, hk]
    · have h1 : insertGrouped ((k, v) :: rest) a = (k, v) :: insertGrouped rest a := by
        simp [insertGrouped, hk]
      rw [h1]
      by_cases hm : a.product.seller_id ∈ rest.map Prod.fst
      · simp [ih, hm, Ne.symm hk]
      · simp [ih, hm, Ne.symm hk]

theorem foldl_insertGrouped_keys_mem (items : List CartItem) :
    ∀ (acc : List (String × List CartItem)) (x : String),
      (x ∈ (items.foldl insertGrouped acc).map Prod.fst ↔
        x ∈ acc.map Prod.fst ∨ x ∈ items.map (fun ci => ci.product.seller_id)) := by
  induction items with
  | nil => intro acc x; simp
  | cons a rest ih =>
    intro acc x
    rw [List.foldl_cons, ih]
    rw [insertGrouped_keys]
    by_cases hm : a.product.seller_id ∈ acc.map Prod.fst
    · simp only [hm, if_true, List.map_cons, List.mem_cons]
      constructor
      · rintro (h | h)
        · exact Or.inl h
        · exact Or.inr (Or.inr h)
      · rintro (h | h | h)
        · exact Or.inl h
        · exact Or.inl (h ▸ hm)
        · exact Or.inr h
    · simp only [hm, if_false, List.map_cons, List.mem_cons, List.mem_append,
        List.mem_singleton]
      tauto

theorem foldl_insertGrouped_keys_nodup (items : List CartItem) :
    ∀ acc : List (String × List CartItem), (acc.map Prod.fst).Nodup →
      ((items.foldl insertGrouped acc).map Prod.fst).Nodup := by
  induction items with
  | nil => intro acc h; simpa using h
  | cons a rest ih =>
    intro acc h
    rw [List.foldl_cons]
    apply ih
    rw [insertGrouped_keys]
    by_cases hm : a.product.seller_id ∈ acc.map Prod.fst
    · simpa [hm] using h
    · simp only [hm, if_false]
      simpa [List.nodup_append, hm] using h

theorem groupBySeller_keys_nodup (items : List CartItem) :
    ((groupBySeller items).map Prod.fst).Nodup :=
  foldl_insertGrouped_keys_nodup items [] (by simp)

theorem groupBySeller_keys_mem (items : List CartItem) (x : String) :
    x ∈ (groupBySeller items).map Prod.fst ↔
      x ∈ items.map (fun ci => ci.product.seller_id) := by
  have h := foldl_insertGrouped_keys_mem items [] x
  simpa [groupBySeller] using h

theorem groupBySeller_length (items : List CartItem) :
    (groupBySeller items).length =
      (items.map (fun ci => ci.product.seller_id)).dedup.length := by
  have hn := groupBySeller_keys_nodup items
  have h2 : ((groupBySeller items).map Prod.fst).toFinset =
      (items.map (fun ci => ci.product.seller_id)).toFinset := by
    ext x
    simp only [List.mem_toFinset]
    exact groupBySeller_keys_mem items x
  have h3 : ((groupBySeller items).map Prod.fst).length =
      (items.map (fun ci => ci.product.seller_id)).dedup.length := by
    rw [← hn.dedup, ← List.card_toFinset, h2, List.card_toFinset]
  simpa using h3

theorem insertGrouped_content {S : CartItem → Prop}
    {acc : List (String × List CartItem)} {a : CartItem}
    (hacc : ∀ p ∈ acc, ∀ ci ∈ p.2, ci.product.seller_id = p.1 ∧ S ci) (ha : S a) :
    ∀ p ∈ insertGrouped acc a, ∀ ci ∈ p.2, ci.product.seller_id = p.1 ∧ S ci := by
  induction acc with
  | nil =>
    intro p hp ci hci
    simp only [insertGrouped, List.mem_singleton] at hp
    subst hp
    simp only [List.mem_singleton] at hci
    subst hci
    exact ⟨rfl, ha⟩
  | cons q rest ih =>
    obtain ⟨k, v⟩ := q
    intro p hp ci hci
    by_cases hk : k = a.product.seller_id
    · subst hk
      simp only [insertGrouped, if_pos, List.mem_cons] at hp
      rcases hp with hp | hp
      · subst hp
        simp only [List.mem_append, List.mem_singleton] at hci
        rcases hci with hci | hci
        · exact hacc (a.product.seller_id, v) (by simp) ci hci
        · subst hci
          exact ⟨rfl, ha⟩
      · exact hacc p (by simp [hp]) ci hci
    · simp only [insertGrouped, hk, if_false, List.mem_cons] at hp
      rcases hp with hp | hp
      · subst hp
        exact hacc (k, v) (by simp) ci hci
      · exact ih (fun p' hp' => hacc p' (by simp [hp'])) p hp ci hci

theorem foldl_insertGrouped_content (S : CartItem → Prop) (items : List CartItem) :
    ∀ acc : List (String × List CartItem),
      (∀ p ∈ acc, ∀ ci ∈ p.2, ci.product.seller_id = p.1 ∧ S ci) →
      (∀ a ∈ items, S a) →
      ∀ p ∈ items.foldl insertGrouped acc, ∀ ci ∈ p.2,
        ci.product.seller_id = p.1 ∧ S ci := by
  induction items with
  | nil => intro acc hacc _; simpa using hacc
  | cons a rest ih =>
    intro acc hacc hall
    rw [List.foldl_cons]
    exact ih (insertGrouped acc a)
      (insertGrouped_content hacc (hall a (by simp)))
      (fun b hb => hall b (by simp [hb]))

theorem groupBySeller_content (items : List CartItem) :
    ∀ p ∈ groupBySeller items, ∀ ci ∈ p.2,
      ci.product.seller_id = p.1 ∧ ci ∈ items :=
  foldl_insertGrouped_content (fun ci => ci ∈ items) items [] (by simp)
    (fun a ha => ha)

theorem insertGrouped_join_perm (acc : List (String × List CartItem)) (a : CartItem) :
    ((insertGrouped acc a).map Prod.snd).flatten.Perm
      ((acc.map Prod.snd).flatten ++ [a]) := by
  induction acc with
  | nil => simp [insertGrouped]
  | cons q rest ih =>
    obtain ⟨k, v⟩ := q
    by_cases hk : k = a.product.seller_id
    · have h0 : insertGrouped ((k, v) :: rest) a = (k, v ++ [a]) :: rest := by
        simp [insertGrouped, hk]
      rw [h0]
      simp only [List.map_cons, List.flatten_cons]
      rw [List.append_assoc, List.append_assoc]
      exact List.Perm.append_left v List.perm_append_comm
    · have h0 : insertGrouped ((k, v) :: rest) a = (k, v) :: insertGrouped rest a := by
        simp [insertGrouped, hk]
      rw [h0]
      simp only [List.map_cons, List.flatten_cons]
      rw [List.append_assoc]
      exact List.Perm.append_left v ih

theorem foldl_insertGrouped_join_perm (items : List CartItem) :
    ∀ acc : List (String × List CartItem),
      ((items.foldl insertGrouped acc).map Prod.snd).flatten.Perm
        ((acc.map Prod.snd).flatten ++ items) := by
  induction items with
  | nil => intro acc; simp
  | cons a rest ih =>
    intro acc
    rw [List.foldl_cons]
    have h1 := ih (insertGrouped acc a)
    have h2 := (insertGrouped_join_perm acc a).append_right rest
    refine h1.trans (h2.trans ?_)
    rw [List.append_assoc]
    exact List.Perm.refl _

theorem groupBySeller_join_perm (items : List CartItem) :
    (((groupBySeller items).map Prod.snd).flatten).Perm items := by
  simpa [groupBySeller] using foldl_insertGrouped_join_perm items []

theorem applyStockUpdates_append (env : Env) (l1 : List CartItem) :
    ∀ (l2 : List CartItem) (ps : List Product) (s : Nat),
      applyStockUpdates env ps s (l1 ++ l2) =
        applyStockUpdates env (applyStockUpdates env ps s l1).1
          (applyStockUpdates env ps s l1).2 l2 := by
  induction l1 with
  | nil => intro l2 ps s; rfl
  | cons it rest ih =>
    intro l2 ps s
    simp only [List.cons_append, applyStockUpdates]
    exact ih l2 _ _

theorem benignOrders_length (env : Env) (uid ship : String) (notes : Option String) :
    ∀ (gs : List (String × List CartItem)) (g oid : Nat),
      (benignOrders env uid ship notes gs g oid).length = gs.length := by
  intro gs
  induction gs with
  | nil => intro g oid; rfl
  | cons p rest ih =>
    obtain ⟨key, its⟩ := p
    intro g oid
    simp [benignOrders, ih]

theorem benignOrders_mem (env : Env) (uid ship : String) (notes : Option String) :
    ∀ (gs : List (String × List CartItem)) (g oid : Nat) (o : OrderRow),
      o ∈ benignOrders env uid ship notes gs g oid →
      ∃ k, ∃ hk : k < gs.length,
        o = mkOrderRow env uid ship notes (g + k) (oid + k)
          (gs.get ⟨k, hk⟩).1 (gs.get ⟨k, hk⟩).2 := by
  intro gs
  induction gs with
  | nil => intro g oid o h; simp [benignOrders] at h
  | cons p rest ih =>
    obtain ⟨key, its⟩ := p
    intro g oid o h
    simp only [benignOrders, List.mem_cons] at h
    rcases h with h | h
    · exact ⟨0, by simp, by simpa using h⟩
    · obtain ⟨k, hk, ho⟩ := ih (g + 1) (oid + 1) o h
      refine ⟨k + 1, by simpa using Nat.succ_lt_succ hk, ?_⟩
      have hg : g + 1 + k = g + (k + 1) := by omega
      have ho2 : oid + 1 + k = oid + (k + 1) := by omega
      rw [ho, hg, ho2]
      rfl

theorem benignOrders_get (env : Env) (uid ship : String) (notes : Option String) :
    ∀ (gs : List (String × List CartItem)) (g oid k : Nat) (hk : k < gs.length)
      (hk' : k < (benignOrders env uid ship notes gs g oid).length),
      (benignOrders env uid ship notes gs g oid).get ⟨k, hk'⟩ =
        mkOrderRow env uid ship notes (g + k) (oid + k)
          (gs.get ⟨k, hk⟩).1 (gs.get ⟨k, hk⟩).2 := by
  intro gs
  induction gs with
  | nil => intro g oid k hk _; exact absurd hk (by simp)
  | cons p rest ih =>
    obtain ⟨key, its⟩ := p
    intro g oid k hk hk'
    cases k with
    | zero => simp [benignOrders]
    | succ k =>
      have hk2 : k < rest.length := by simpa using hk
      have hk3 : k < (benignOrders env uid ship notes rest (g + 1) (oid + 1)).length := by
        rw [benignOrders_length]; exact hk2
      have hstep : (benignOrders env uid ship notes ((key, its) :: rest) g oid).get
          ⟨k + 1, hk'⟩ =
          (benignOrders env uid ship notes rest (g + 1) (oid + 1)).get ⟨k, hk3⟩ := rfl
      rw [hstep, ih (g + 1) (oid + 1) k hk2 hk3]
      have hg : g + 1 + k = g + (k + 1) := by omega
      have ho2 : oid + 1 + k = oid + (k + 1) := by omega
      rw [hg, ho2]
      rfl

theorem mkOrderItems_mem (oid : Nat) (its : List CartItem) (oi : OrderItemRow)
    (h : oi ∈ mkOrderItems oid its) :
    oi.order_id = oid ∧ ∃ ci ∈ its, oi.product_id = ci.product_id ∧
      oi.quantity = ci.quantity ∧ oi.unit_price = ci.product.price ∧
      oi.total_price = ci.product.price * (ci.quantity : ℚ) := by
  simp only [mkOrderItems, List.mem_map] at h
  obtain ⟨ci, hci, rfl⟩ := h
  exact ⟨rfl, ci, hci, rfl, rfl, rfl, rfl⟩

theorem benignItems_mem :
    ∀ (gs : List (String × List CartItem)) (oid : Nat) (oi : OrderItemRow),
      oi ∈ benignItems gs oid →
      ∃ k, ∃ hk : k < gs.length, oi ∈ mkOrderItems (oid + k) (gs.get ⟨k, hk⟩).2 := by
  intro gs
  induction gs with
  | nil => intro oid oi h; simp [benignItems] at h
  | cons p rest ih =>
    obtain ⟨key, its⟩ := p
    intro oid oi h
    simp only [benignItems, List.mem_append] at h
    rcases h with h | h
    · exact ⟨0, by simp, by simpa using h⟩
    · obtain ⟨k, hk, hm⟩ := ih (oid + 1) oi h
      refine ⟨k + 1, by simpa using Nat.succ_lt_succ hk, ?_⟩
      have ho2 : oid + 1 + k = oid + (k + 1) := by omega
      rw [← ho2]
      exact hm

theorem processGroups_benign (env : Env) (uid ship : String) (notes : Option String)
    (hOrd : ∀ g, env.insertOrderErr g = none)
    (hIt : ∀ g, env.insertItemsErr g = none) :
    ∀ (gs : List (String × List CartItem)) (st : Store) (g s : Nat)
      (acc : List OrderRow),
      processGroups env uid ship notes gs st g s acc =
        ({ st with
            orders := st.orders ++
              benignOrders env uid ship notes gs g st.orders.length
            order_items := st.order_items ++ benignItems gs st.orders.length
            products :=
              (applyStockUpdates env st.products s ((gs.map Prod.snd).flatten)).1 },
          Except.ok (acc ++
            benignOrders env uid ship notes gs g st.orders.length)) := by
  intro gs
  induction gs with
  | nil =>
    intro st g s acc
    simp [processGroups, benignOrders, benignItems, applyStockUpdates]
  | cons p rest ih =>
    obtain ⟨key, its⟩ := p
    intro st g s acc
    simp only [processGroups, hOrd g, hIt g]
    rw [ih]
    simp only [List.map_cons, List.flatten_cons]
    rw [applyStockUpdates_append env its ((rest.map Prod.snd).flatten) st.products s]
    simp [benignOrders, benignItems, List.append_assoc, mkOrderRow]

theorem createOrder_ok_parts (env : Env) (uid : String) (st : Store)
    (cart : List CartItem) (ship : String) (notes : Option String)
    (hOrd : ∀ g, env.insertOrderErr g = none)
    (hIt : ∀ g, env.insertItemsErr g = none) :
    ∃ st', createOrder env (some uid) st cart ship notes =
        (st', Except.ok (benignOrders env uid ship notes (groupBySeller cart) 0
          st.orders.length)) ∧
      st'.orders = st.orders ++
        benignOrders env uid ship notes (groupBySeller cart) 0 st.orders.length ∧
      st'.order_items = st.order_items ++
        benignItems (groupBySeller cart) st.orders.length ∧
      st'.products = (applyStockUpdates env st.products 0
        (((groupBySeller cart).map Prod.snd).flatten)).1 := by
  simp only [createOrder]
  rw [processGroups_benign env uid ship notes hOrd hIt]
  cases hdel : env.deleteCartErr with
  | some e =>
    exact ⟨{ st with
        orders := st.orders ++
          benignOrders env uid ship notes (groupBySeller cart) 0 st.orders.length,
        order_items := st.order_items ++
          benignItems (groupBySeller cart) st.orders.length,
        products := (applyStockUpdates env st.products 0
          (((groupBySeller cart).map Prod.snd).flatten)).1 },
      by simp, rfl, rfl, rfl⟩
  | none =>
    exact ⟨{ st with
        orders := st.orders ++
          benignOrders env uid ship notes (groupBySeller cart) 0 st.orders.length,
        order_items := st.order_items ++
          benignItems (groupBySeller cart) st.orders.length,
        products := (applyStockUpdates env st.products 0
          (((groupBySeller cart).map Prod.snd).flatten)).1,
        cart_items := st.cart_items.filter (fun c => c.buyer_id != uid) },
      by simp, rfl, rfl, rfl⟩

theorem stockWrite_mem (ps : List Product) (pid : String) (v : Int) (p : Product)
    (hp : p ∈ stockWrite ps pid v) :
    ∃ q ∈ ps, (q.id = pid ∧ p = { q with stock_quantity := v }) ∨
      (q.id ≠ pid ∧ p = q) := by
  simp only [stockWrite, List.mem_map] at hp
  obtain ⟨q, hq, rfl⟩ := hp
  by_cases h : q.id = pid
  · exact ⟨q, hq, Or.inl ⟨h, by simp [h]⟩⟩
  · exact ⟨q, hq, Or.inr ⟨h, by simp [h]⟩⟩

theorem applyStockUpdates_untouched (env : Env) (pid : String) (v : Int) :
    ∀ (l : List CartItem), pid ∉ l.map (fun it => it.product_id) →
      ∀ (ps : List Product) (s : Nat),
        (∀ p ∈ ps, p.id = pid → p.stock_quantity = v) →
        ∀ p ∈ (applyStockUpdates env ps s l).1, p.id = pid → p.stock_quantity = v := by
  intro l
  induction l with
  | nil => intro _ ps s hps; simpa [applyStockUpdates] using hps
  | cons it rest ih =>
    intro hnot ps s hps
    simp only [List.map_cons, List.mem_cons, not_or] at hnot
    obtain ⟨hne, hnot2⟩ := hnot
    simp only [applyStockUpdates]
    cases henv : env.updateStockErr s with
    | some e => exact ih hnot2 ps (s + 1) hps
    | none =>
      refine ih hnot2 _ (s + 1) ?_
      intro p hp hpid
      obtain ⟨q, hq, hcase⟩ := stockWrite_mem ps it.product_id _ p hp
      rcases hcase with ⟨hqid, rfl⟩ | ⟨hqid, rfl⟩
      · exact absurd (hpid.symm.trans hqid) hne
      · exact hps _ hq hpid

theorem applyStockUpdates_eval (env : Env)
    (hStock : ∀ s, env.updateStockErr s = none) :
    ∀ (l : List CartItem) (ci : CartItem), ci ∈ l →
      (l.map (fun it => it.product_id)).Nodup →
      ∀ (ps : List Product) (s : Nat),
        ∀ p ∈ (applyStockUpdates env ps s l).1, p.id = ci.product_id →
          p.stock_quantity = max 0 (ci.product.stock_quantity - ci.quantity) := by
  intro l
  induction l with
  | nil => intro ci h; exact absurd h (by simp)
  | cons it rest ih =>
    intro ci hci hnd ps s p hp hpid
    simp only [List.map_cons, List.nodup_cons] at hnd
    obtain ⟨hnotin, hnd2⟩ := hnd
    rcases List.mem_cons.1 hci with rfl | hci2
    · simp only [applyStockUpdates, hStock s] at hp
      refine applyStockUpdates_untouched env ci.product_id _ rest hnotin _ (s + 1)
        ?_ p hp hpid
      intro q hq hqid
      obtain ⟨q2, hq2, hcase⟩ := stockWrite_mem ps ci.product_id _ q hq
      rcases hcase with ⟨h1, rfl⟩ | ⟨h1, rfl⟩
      · rfl
      · exact absurd hqid h1
    · simp only [applyStockUpdates, hStock s] at hp
      exact ih ci hci2 hnd2 _ (s + 1) p hp hpid

theorem mkOrderItems_order_id (oid : Nat) (its : List CartItem) :
    ∀ oi ∈ mkOrderItems oid its, oi.order_id = oid := by
  intro oi h
  exact (mkOrderItems_mem oid its oi h).1

theorem benignItems_filter_lt :
    ∀ (gs : List (String × List CartItem)) (oid t : Nat), t < oid →
      (benignItems gs oid).filter (fun oi => oi.order_id == t) = [] := by
  intro gs
  induction gs with
  | nil => intro oid t _; rfl
  | cons p rest ih =>
    obtain ⟨key, its⟩ := p
    intro oid t ht
    simp only [benignItems, List.filter_append]
    rw [ih (oid + 1) t (by omega)]
    rw [List.filter_eq_nil_iff.2]
    · simp
    · intro oi hoi
      have h1 := mkOrderItems_order_id oid its oi hoi
      simp only [h1, beq_iff_eq]
      omega

theorem benignItems_filter :
    ∀ (gs : List (String × List CartItem)) (oid k : Nat) (hk : k < gs.length),
      (benignItems gs oid).filter (fun oi => oi.order_id == oid + k) =
        mkOrderItems (oid + k) (gs.get ⟨k, hk⟩).2 := by
  intro gs
  induction gs with
  | nil => intro oid k hk; exact absurd hk (by simp)
  | cons p rest ih =>
    obtain ⟨key, its⟩ := p
    intro oid k hk
    simp only [benignItems, List.filter_append]
    cases k with
    | zero =>
      rw [benignItems_filter_lt rest (oid + 1) (oid + 0) (by omega)]
      rw [List.filter_eq_self.2]
      · simp
      · intro oi hoi
        simp [mkOrderItems_order_id oid its oi hoi]
    | succ k =>
      have h1 : (mkOrderItems oid its).filter
          (fun oi => oi.order_id == oid + (k + 1)) = [] := by
        rw [List.filter_eq_nil_iff.2]
        intro oi hoi
        simp only [mkOrderItems_order_id oid its oi hoi, beq_iff_eq]
        omega
      rw [h1]
      have hk2 : k < rest.length := by simpa using hk
      have h2 := ih (oid + 1) k hk2
      have h3 : oid + 1 + k = oid + (k + 1) := by omega
      rw [h3] at h2
      rw [h2]
      simp only [List.nil_append]
      rfl

theorem mkOrderItems_total_sum (oid : Nat) (its : List CartItem) :
    ((mkOrderItems oid its).map (fun oi => oi.total_price)).sum = groupTotal its := by
  rw [groupTotal_eq_sum]
  simp only [mkOrderItems, List.map_map]
  rfl

theorem processGroups_fail (env : Env) (uid ship : String) (notes : Option String)
    (e : StoreErr) :
    ∀ (gs : List (String × List CartItem)) (k : Nat) (st : Store) (g s : Nat)
      (acc : List OrderRow),
      k < gs.length →
      (∀ j, j < k → env.insertOrderErr (g + j) = none ∧
        env.insertItemsErr (g + j) = none) →
      (env.insertOrderErr (g + k) = some e ∨
        (env.insertOrderErr (g + k) = none ∧ env.insertItemsErr (g + k) = some e)) →
      ∃ st', processGroups env uid ship notes gs st g s acc =
          (st', Except.error (catchMessage "Failed to create order" e)) ∧
        st'.cart_items = st.cart_items ∧
        st'.payment_receipts = st.payment_receipts ∧
        (∃ tail, st'.orders = st.orders ++ tail) ∧
        st.orders.length + k ≤ st'.orders.length ∧
        (∃ tailI, st'.order_items = st.order_items ++ tailI) ∧
        st'.products = (applyStockUpdates env st.products s
          (((gs.take k).map Prod.snd).flatten)).1 := by
  intro gs
  induction gs with
  | nil => intro k st g s acc hk; exact absurd hk (by simp)
  | cons p rest ih =>
    obtain ⟨key, its⟩ := p
    intro k st g s acc hk hbef hfail
    cases k with
    | zero =>
      rcases hfail with hf | ⟨hOrd0, hf⟩
      · have hf2 : env.insertOrderErr g = some e := by simpa using hf
        refine ⟨st, ?_, rfl, rfl, ⟨[], by simp⟩, by omega, ⟨[], by simp⟩,
          by simp [applyStockUpdates]⟩
        simp [processGroups, hf2]
      · have hOrd2 : env.insertOrderErr g = none := by simpa using hOrd0
        have hf2 : env.insertItemsErr g = some e := by simpa using hf
        refine ⟨{ st with orders := st.orders ++
            [mkOrderRow env uid ship notes g st.orders.length key its] }, ?_,
          rfl, rfl,
          ⟨[mkOrderRow env uid ship notes g st.orders.length key its], rfl⟩,
          by simp, ⟨[], by simp⟩, by simp [applyStockUpdates]⟩
        simp [processGroups, hOrd2, hf2]
    | succ k =>
      have h0 := hbef 0 (by omega)
      have hOrd0 : env.insertOrderErr g = none := by simpa using h0.1
      have hIt0 : env.insertItemsErr g = none := by simpa using h0.2
      simp only [processGroups, hOrd0, hIt0]
      have hbef2 : ∀ j, j < k → env.insertOrderErr (g + 1 + j) = none ∧
          env.insertItemsErr (g + 1 + j) = none := by
        intro j hj
        have h2 := hbef (j + 1) (by omega)
        have h3 : g + (j + 1) = g + 1 + j := by omega
        rw [h3] at h2
        exact h2
      have hfail2 : env.insertOrderErr (g + 1 + k) = some e ∨
          (env.insertOrderErr (g + 1 + k) = none ∧
            env.insertItemsErr (g + 1 + k) = some e) := by
        have h3 : g + (k + 1) = g + 1 + k := by omega
        rw [← h3]
        exact hfail
      obtain ⟨st', hrun, hcart, hpr, ⟨tail, htail⟩, hlen, ⟨tailI, htailI⟩, hprod⟩ :=
        ih k
          { st with
            orders := st.orders ++
              [mkOrderRow env uid ship notes g st.orders.length key its],
            order_items := st.order_items ++
              mkOrderItems st.orders.length its,
            products := (applyStockUpdates env st.products s its).1 }
          (g + 1) ((applyStockUpdates env st.products s its).2)
          (acc ++ [mkOrderRow env uid ship notes g st.orders.length key its])
          (by simpa using hk) hbef2 hfail2
      refine ⟨st', ?_, by simpa using hcart, by simpa using hpr, ?_, ?_, ?_, ?_⟩
      · rw [← hrun]
        rfl
      · refine ⟨mkOrderRow env uid ship notes g st.orders.length key its :: tail, ?_⟩
        simpa [List.append_assoc] using htail
      · simp only [List.length_append, List.length_cons, List.length_nil] at hlen
        omega
      · refine ⟨mkOrderItems st.orders.length its ++ tailI, ?_⟩
        simpa [List.append_assoc] using htailI
      · rw [hprod]
        have hstep : (((key, its) :: rest).take (k + 1)).map Prod.snd =
            its :: (rest.take k).map Prod.snd := by simp
        rw [hstep]
        rw [List.flatten_cons]
        rw [applyStockUpdates_append]

/-! Concrete fixtures used by witnesses and counterexamples: two products from
two sellers, the matching cart rows of buyer "u", and outcome schedules. -/

/-- A store error thrown as a JavaScript Error instance with message "boom". -/
def errBoom : StoreErr := { message := "boom", isErrorInstance := true }

/-- Seller s1's product, price 500, stock 10. -/
def prodA : Product :=
  { id := "pA", seller_id := "s1", price := 500, stock_quantity := 10 }

/-- Seller s2's product, price 1000, stock 5. -/
def prodB : Product :=
  { id := "pB", seller_id := "s2", price := 1000, stock_quantity := 5 }

/-- Cart item: 2 units of prodA. -/
def itemA : CartItem := { id := "cA", product_id := "pA", quantity := 2, product := prodA }

/-- Cart item: 1 unit of prodB. -/
def itemB : CartItem := { id := "cB", product_id := "pB", quantity := 1, product := prodB }

/-- Cart row behind itemA, owned by buyer "u". -/
def rowA : CartRow := { id := "cA", buyer_id := "u", product_id := "pA", quantity := 2 }

/-- Cart row behind itemB, owned by buyer "u". -/
def rowB : CartRow := { id := "cB", buyer_id := "u", product_id := "pB", quantity := 1 }

/-- Initial store: no orders, the two products, buyer "u"'s two cart rows. -/
def baseStore : Store :=
  { orders := [], order_items := [], products := [prodA, prodB],
    cart_items := [rowA, rowB], payment_receipts := [] }

/-- Every store call succeeds; the rpc returns "ON-1". -/
def benignEnv : Env :=
  { rpcOrderNumber := fun _ => some "ON-1", insertOrderErr := fun _ => none,
    insertItemsErr := fun _ => none, updateStockErr := fun _ => none,
    deleteCartErr := none, updateStatusErr := none, insertReceiptErr := none,
    nowMs := 1700 }

/-- Like benignEnv but the second order insert (group index 1) fails. -/
def envFailS2 : Env :=
  { benignEnv with insertOrderErr := fun n => if n = 1 then some errBoom else none }

/-- Like benignEnv but the first stock-update write fails. -/
def envStockFail : Env :=
  { benignEnv with updateStockErr := fun n => if n = 0 then some errBoom else none }

/-- Like benignEnv but the status update fails. -/
def envStatusFail : Env := { benignEnv with updateStatusErr := some errBoom }

/-- Like benignEnv but every generate_order_number rpc returns null. -/
def envNoRpc : Env := { benignEnv with rpcOrderNumber := fun _ => none }

/-- Cart-hook schedule: both store calls succeed. -/
def cartEnvOk : CartEnv := { updateCartErr := none, removeCartErr := none }

/-- The order created for seller s1 from [itemA] or [itemA, itemB] at
baseStore (fresh id 0, rpc number "ON-1", total 2 × 500). -/
def orderAS1 : OrderRow :=
  { id := 0, order_number := "ON-1", buyer_id := "u", seller_id := "s1",
    total_amount := 1000, status := "pending", shipping_address := "addr",
    notes := none }

/-- The order-item row for itemA under order id 0. -/
def oiA : OrderItemRow :=
  { order_id := 0, product_id := "pA", quantity := 2, unit_price := 500,
    total_price := 1000 }

/-- prodA after a successful decrement by 2. -/
def prodA8 : Product := { prodA with stock_quantity := 8 }

/-- C1: for a non-empty cart spanning N distinct seller ids, a checkout whose
order and order-item inserts all succeed returns ok with exactly N created
orders appended to the store, and every order-item row belonging to a created
order stems from a cart item whose product's seller id equals that order's
seller id — no order mixes items of two sellers.  The store is assumed
well-formed: pre-existing order-item rows reference order ids below the next
fresh id. -/
theorem C1_one_order_per_seller (env : Env) (uid : String) (st : Store)
    (cart : List CartItem) (ship : String) (notes : Option String)
    (hOrd : ∀ g, env.insertOrderErr g = none)
    (hIt : ∀ g, env.insertItemsErr g = none)
    (hne : cart ≠ [])
    (hfreshI : ∀ oi ∈ st.order_items, oi.order_id < st.orders.length) :
    ∃ st' os, createOrder env (some uid) st cart ship notes = (st', Except.ok os) ∧
      os.length = (cart.map (fun ci => ci.product.seller_id)).dedup.length ∧
      st'.orders = st.orders ++ os ∧
      ∀ o ∈ os, ∀ oi ∈ st'.order_items, oi.order_id = o.id →
        ∃ ci ∈ cart, oi.product_id = ci.product_id ∧
          ci.product.seller_id = o.seller_id := by
  obtain ⟨st', hrun, hord, hitems, hprod⟩ :=
    createOrder_ok_parts env uid st cart ship notes hOrd hIt
  refine ⟨st', _, hrun, ?_, hord, ?_⟩
  · rw [benignOrders_length]
    exact groupBySeller_length cart
  · intro o ho oi hoi hid
    obtain ⟨k, hk, hoeq⟩ :=
      benignOrders_mem env uid ship notes _ 0 st.orders.length o ho
    have hoid : o.id = st.orders.length + k := by rw [hoeq]; rfl
    rw [hitems] at hoi
    rcases List.mem_append.1 hoi with hold | hnew
    · exfalso
      have h1 := hfreshI oi hold
      omega
    · obtain ⟨k2, hk2, hm⟩ :=
        benignItems_mem (groupBySeller cart) st.orders.length oi hnew
      obtain ⟨hoid2, ci, hci, hpid, _, _, _⟩ := mkOrderItems_mem _ _ oi hm
      have hkk : k2 = k := by omega
      subst hkk
      have hcontent := groupBySeller_content cart
        ((groupBySeller cart).get ⟨k2, hk2⟩)
        (List.get_mem (groupBySeller cart) k2 hk2) ci hci
      refine ⟨ci, hcontent.2, hpid, ?_⟩
      have hsell : o.seller_id = ((groupBySeller cart).get ⟨k2, hk⟩).1 := by
        rw [hoeq]; rfl
      exact hsell ▸ hcontent.1

/-- Witness for C1: the two-seller cart [itemA, itemB] at baseStore. -/
theorem C1_one_order_per_seller_witness :
    ∃ st' os, createOrder benignEnv (some "u") baseStore [itemA, itemB]
        "addr" none = (st', Except.ok os) ∧
      os.length = (([itemA, itemB].map (fun ci => ci.product.seller_id))).dedup.length ∧
      st'.orders = baseStore.orders ++ os ∧
      ∀ o ∈ os, ∀ oi ∈ st'.order_items, oi.order_id = o.id →
        ∃ ci ∈ [itemA, itemB], oi.product_id = ci.product_id ∧
          ci.product.seller_id = o.seller_id :=
  C1_one_order_per_seller benignEnv "u" baseStore [itemA, itemB] "addr" none
    (fun _ => rfl) (fun _ => rfl) (by simp)
    (fun oi hoi => absurd hoi (by simp [baseStore]))

/-- C10: called with an authenticated user and an empty cart list, createOrder
creates no orders and no order items, still issues the delete of the buyer's
cart rows, and returns ok with the empty list. -/
theorem C10_empty_cart (env : Env) (uid : String) (st : Store) (ship : String)
    (notes : Option String) (hdel : env.deleteCartErr = none) :
    createOrder env (some uid) st [] ship notes =
      ({ st with cart_items := st.cart_items.filter (fun c => c.buyer_id != uid) },
        Except.ok []) := by
  simp [createOrder, processGroups, groupBySeller, hdel]

/-- Witness for C10 at baseStore, where the delete removes both cart rows. -/
theorem C10_empty_cart_witness :
    createOrder benignEnv (some "u") baseStore [] "addr" none =
      ({ baseStore with
          cart_items := baseStore.cart_items.filter (fun c => c.buyer_id != "u") },
        Except.ok []) :=
  C10_empty_cart benignEnv "u" baseStore "addr" none rfl

/-- C9: updateQuantity with a non-positive quantity is literally the
removeFromCart operation (identical resulting store and result), and whenever
the delete succeeds the item is absent from the resulting cart. -/
theorem C9_update_nonpos_is_remove (env : CartEnv) (st : Store) (cid : String)
    (q : Int) (hq : q ≤ 0) :
    updateQuantity env st cid q = removeFromCart env st cid ∧
    (env.removeCartErr = none →
      ∀ c ∈ (updateQuantity env st cid q).1.cart_items, c.id ≠ cid) := by
  constructor
  · simp [updateQuantity, hq]
  · intro hok c hc
    simp only [updateQuantity, hq, if_pos, removeFromCart, hok,
      List.mem_filter] at hc
    exact (bne_iff_ne).1 hc.2

/-- Witness for C9: quantity 0 on cart row cA at baseStore. -/
theorem C9_update_nonpos_is_remove_witness :
    updateQuantity cartEnvOk baseStore "cA" 0 = removeFromCart cartEnvOk baseStore "cA" ∧
    (cartEnvOk.removeCartErr = none →
      ∀ c ∈ (updateQuantity cartEnvOk baseStore "cA" 0).1.cart_items, c.id ≠ "cA") :=
  C9_update_nonpos_is_remove cartEnvOk baseStore "cA" 0 (by omega)

/-- C5 counterexample: an empty cart with an empty shipping address is NOT
rejected before any write: the call returns ok [] and the buyer's two cart
rows have been deleted from the store. -/
theorem C5_counterexample :
    createOrder benignEnv (some "u") baseStore [] "" none =
      ({ baseStore with cart_items := [] }, Except.ok []) := rfl

/-- C5 amended: createOrder validates only authentication — never the cart or
the shipping address.  With succeeding inserts, any cart (including the empty
one) and any shipping address (including the empty string) proceed to the
store writes and return ok, the given address being written verbatim on every
created order. -/
theorem C5_no_validation (env : Env) (uid : String) (st : Store)
    (cart : List CartItem) (ship : String) (notes : Option String)
    (hOrd : ∀ g, env.insertOrderErr g = none)
    (hIt : ∀ g, env.insertItemsErr g = none) :
    ∃ st' os, createOrder env (some uid) st cart ship notes = (st', Except.ok os) ∧
      ∀ o ∈ os, o.shipping_address = ship := by
  obtain ⟨st', hrun, _, _, _⟩ :=
    createOrder_ok_parts env uid st cart ship notes hOrd hIt
  refine ⟨st', _, hrun, ?_⟩
  intro o ho
  obtain ⟨k, hk, hoeq⟩ :=
    benignOrders_mem env uid ship notes _ 0 st.orders.length o ho
  rw [hoeq]
  rfl

/-- Witness for C5's amended claim: empty shipping address accepted. -/
theorem C5_no_validation_witness :
    ∃ st' os, createOrder benignEnv (some "u") baseStore [itemA] "" none =
        (st', Except.ok os) ∧
      ∀ o ∈ os, o.shipping_address = "" :=
  C5_no_validation benignEnv "u" baseStore [itemA] "" none
    (fun _ => rfl) (fun _ => rfl)

/-- C3: in a successful checkout, every order-item row of a created order has
total_price = unit_price * quantity exactly, and each created order's
total_amount equals the sum of the total_price of precisely its own order-item
rows.  The store is assumed well-formed as in C1. -/
theorem C3_totals (env : Env) (uid : String) (st : Store)
    (cart : List CartItem) (ship : String) (notes : Option String)
    (hOrd : ∀ g, env.insertOrderErr g = none)
    (hIt : ∀ g, env.insertItemsErr g = none)
    (hfreshI : ∀ oi ∈ st.order_items, oi.order_id < st.orders.length) :
    ∃ st' os, createOrder env (some uid) st cart ship notes = (st', Except.ok os) ∧
      (∀ o ∈ os, ∀ oi ∈ st'.order_items, oi.order_id = o.id →
        oi.total_price = oi.unit_price * (oi.quantity : ℚ)) ∧
      (∀ o ∈ os, o.total_amount =
        ((st'.order_items.filter (fun oi => oi.order_id == o.id)).map
          (fun oi => oi.total_price)).sum) := by
  obtain ⟨st', hrun, hord, hitems, hprod⟩ :=
    createOrder_ok_parts env uid st cart ship notes hOrd hIt
  refine ⟨st', _, hrun, ?_, ?_⟩
  · intro o ho oi hoi hid
    obtain ⟨k, hk, hoeq⟩ :=
      benignOrders_mem env uid ship notes _ 0 st.orders.length o ho
    have hoid : o.id = st.orders.length + k := by rw [hoeq]; rfl
    rw [hitems] at hoi
    rcases List.mem_append.1 hoi with hold | hnew
    · exact absurd hid (by have := hfreshI oi hold; omega)
    · obtain ⟨k2, hk2, hm⟩ :=
        benignItems_mem (groupBySeller cart) st.orders.length oi hnew
      obtain ⟨_, ci, _, _, hq, hu, ht⟩ := mkOrderItems_mem _ _ oi hm
      rw [ht, hu, hq]
  · intro o ho
    obtain ⟨k, hk, hoeq⟩ :=
      benignOrders_mem env uid ship notes _ 0 st.orders.length o ho
    have hoid : o.id = st.orders.length + k := by rw [hoeq]; rfl
    rw [hitems, hoid, List.filter_append]
    rw [List.filter_eq_nil_iff.2 (fun oi hoi => by
      simp only [beq_iff_eq]
      have := hfreshI oi hoi
      omega)]
    rw [benignItems_filter (groupBySeller cart) st.orders.length k hk]
    rw [List.nil_append, mkOrderItems_total_sum]
    rw [hoeq]
    rfl

/-- Witness for C3: the two-seller cart [itemA, itemB] at baseStore. -/
theorem C3_totals_witness :
    ∃ st' os, createOrder benignEnv (some "u") baseStore [itemA, itemB]
        "addr" none = (st', Except.ok os) ∧
      (∀ o ∈ os, ∀ oi ∈ st'.order_items, oi.order_id = o.id →
        oi.total_price = oi.unit_price * (oi.quantity : ℚ)) ∧
      (∀ o ∈ os, o.total_amount =
        ((st'.order_items.filter (fun oi => oi.order_id == o.id)).map
          (fun oi => oi.total_price)).sum) :=
  C3_totals benignEnv "u" baseStore [itemA, itemB] "addr" none
    (fun _ => rfl) (fun _ => rfl)
    (fun oi hoi => absurd hoi (by simp [baseStore]))

/-- C4: in a checkout whose inserts and stock writes all succeed, and whose
cart references each product at most once (the cart's uniqueness invariant),
every cart item's product row ends with stock_quantity =
max(0, snapshot stock − ordered quantity); in particular the result is never
negative and is 0 whenever the ordered quantity exceeds the snapshot stock. -/
theorem C4_stock_clamped (env : Env) (uid : String) (st : Store)
    (cart : List CartItem) (ship : String) (notes : Option String)
    (hOrd : ∀ g, env.insertOrderErr g = none)
    (hIt : ∀ g, env.insertItemsErr g = none)
    (hStock : ∀ s, env.updateStockErr s = none)
    (hNodup : (cart.map (fun ci => ci.product_id)).Nodup) :
    ∃ st' os, createOrder env (some uid) st cart ship notes = (st', Except.ok os) ∧
      ∀ ci ∈ cart, ∀ p ∈ st'.products, p.id = ci.product_id →
        p.stock_quantity = max 0 (ci.product.stock_quantity - ci.quantity) ∧
        0 ≤ p.stock_quantity ∧
        (ci.product.stock_quantity < ci.quantity → p.stock_quantity = 0) := by
  obtain ⟨st', hrun, hord, hitems, hprod⟩ :=
    createOrder_ok_parts env uid st cart ship notes hOrd hIt
  refine ⟨st', _, hrun, ?_⟩
  intro ci hci p hp hpid
  have hperm := groupBySeller_join_perm cart
  have hci2 : ci ∈ ((groupBySeller cart).map Prod.snd).flatten :=
    hperm.mem_iff.2 hci
  have hnd2 : ((((groupBySeller cart).map Prod.snd).flatten).map
      (fun it => it.product_id)).Nodup :=
    (List.Perm.nodup_iff (hperm.map (fun it => it.product_id))).2 hNodup
  rw [hprod] at hp
  have hmain := applyStockUpdates_eval env hStock _ ci hci2 hnd2 st.products 0 p hp hpid
  refine ⟨hmain, ?_, ?_⟩
  · rw [hmain]
    exact le_max_left 0 _
  · intro hlt
    rw [hmain]
    exact max_eq_left (by omega)

/-- Witness for C4: the two-seller cart [itemA, itemB] at baseStore. -/
theorem C4_stock_clamped_witness :
    ∃ st' os, createOrder benignEnv (some "u") baseStore [itemA, itemB]
        "addr" none = (st', Except.ok os) ∧
      ∀ ci ∈ [itemA, itemB], ∀ p ∈ st'.products, p.id = ci.product_id →
        p.stock_quantity = max 0 (ci.product.stock_quantity - ci.quantity) ∧
        0 ≤ p.stock_quantity ∧
        (ci.product.stock_quantity < ci.quantity → p.stock_quantity = 0) :=
  C4_stock_clamped benignEnv "u" baseStore [itemA, itemB] "addr" none
    (fun _ => rfl) (fun _ => rfl) (fun _ => rfl) (by simp [itemA, itemB])

/-- C8: when the order and order-item inserts succeed, the checkout returns ok
whatever the generate_order_number rpc returns, and every group whose rpc
returned no value gets the timestamp fallback "ORD-" ++ toString Date.now()
as its order number. -/
theorem C8_order_number_fallback (env : Env) (uid : String) (st : Store)
    (cart : List CartItem) (ship : String) (notes : Option String)
    (hOrd : ∀ g, env.insertOrderErr g = none)
    (hIt : ∀ g, env.insertItemsErr g = none) :
    ∃ st' os, createOrder env (some uid) st cart ship notes = (st', Except.ok os) ∧
      ∀ k (hk : k < os.length), env.rpcOrderNumber k = none →
        (os.get ⟨k, hk⟩).order_number =
          String.append "ORD-" (toString env.nowMs) := by
  obtain ⟨st', hrun, _, _, _⟩ :=
    createOrder_ok_parts env uid st cart ship notes hOrd hIt
  refine ⟨st', _, hrun, ?_⟩
  intro k hk hrpc
  have hlen := benignOrders_length env uid ship notes (groupBySeller cart) 0
    st.orders.length
  have hk2 : k < (groupBySeller cart).length := by omega
  rw [benignOrders_get env uid ship notes (groupBySeller cart) 0
    st.orders.length k hk2 hk]
  show jsOrString (env.rpcOrderNumber (0 + k)) _ = _
  rw [Nat.zero_add, hrpc]
  rfl

/-- Witness for C8: every rpc returns null, single-item cart. -/
theorem C8_order_number_fallback_witness :
    ∃ st' os, createOrder envNoRpc (some "u") baseStore [itemA]
        "addr" none = (st', Except.ok os) ∧
      ∀ k (hk : k < os.length), envNoRpc.rpcOrderNumber k = none →
        (os.get ⟨k, hk⟩).order_number =
          String.append "ORD-" (toString envNoRpc.nowMs) :=
  C8_order_number_fallback envNoRpc "u" baseStore [itemA] "addr" none
    (fun _ => rfl) (fun _ => rfl)

/-- C2: if the order insert or the order-items insert of the k-th seller group
(k ≥ 1) fails after the k earlier groups committed, createOrder surfaces the
caught store error, the buyer's cart rows are untouched (the cart delete is
never issued), the already-created orders and order items remain appended to
the store — at least the k committed orders — and the products table holds
exactly the stock writes of the committed groups: no rollback of any kind. -/
theorem C2_midway_failure (env : Env) (uid : String) (st : Store)
    (cart : List CartItem) (ship : String) (notes : Option String)
    (k : Nat) (e : StoreErr)
    (hk : k < (groupBySeller cart).length) (hk1 : 1 ≤ k)
    (hbef : ∀ j, j < k → env.insertOrderErr j = none ∧ env.insertItemsErr j = none)
    (hfail : env.insertOrderErr k = some e ∨
      (env.insertOrderErr k = none ∧ env.insertItemsErr k = some e)) :
    ∃ st', createOrder env (some uid) st cart ship notes =
        (st', Except.error (catchMessage "Failed to create order" e)) ∧
      st'.cart_items = st.cart_items ∧
      (∃ tail, st'.orders = st.orders ++ tail) ∧
      st.orders.length + k ≤ st'.orders.length ∧
      (∃ tailI, st'.order_items = st.order_items ++ tailI) ∧
      st'.products = (applyStockUpdates env st.products 0
        ((((groupBySeller cart).take k).map Prod.snd).flatten)).1 := by
  obtain ⟨st', hrun, hcart, hpr, htail, hlen, htailI, hprod⟩ :=
    processGroups_fail env uid ship notes e (groupBySeller cart) k st 0 0 []
      hk (by simpa using hbef) (by simpa using hfail)
  refine ⟨st', ?_, hcart, htail, hlen, htailI, hprod⟩
  simp only [createOrder]
  rw [hrun]

/-- Witness for C2: the S2 order insert fails after S1's group committed. -/
theorem C2_midway_failure_witness :
    ∃ st', createOrder envFailS2 (some "u") baseStore [itemA, itemB]
        "addr" none =
        (st', Except.error (catchMessage "Failed to create order" errBoom)) ∧
      st'.cart_items = baseStore.cart_items ∧
      (∃ tail, st'.orders = baseStore.orders ++ tail) ∧
      baseStore.orders.length + 1 ≤ st'.orders.length ∧
      (∃ tailI, st'.order_items = baseStore.order_items ++ tailI) ∧
      st'.products = (applyStockUpdates envFailS2 baseStore.products 0
        ((((groupBySeller [itemA, itemB]).take 1).map Prod.snd).flatten)).1 :=
  C2_midway_failure envFailS2 "u" baseStore [itemA, itemB] "addr" none 1 errBoom
    (by decide) (le_refl 1)
    (fun j hj => by
      have hj0 : j = 0 := by omega
      subst hj0
      exact ⟨rfl, rfl⟩)
    (Or.inl rfl)

/-- C6 counterexample: the first stock-update write fails (the env reports a
store error for it), yet createOrder succeeds — ok with the created order, the
products table simply left unchanged.  A failing store write inside the
operation that does not fail the operation, contradicting the claim that every
failing store call is propagated. -/
theorem C6_counterexample :
    createOrder envStockFail (some "u") baseStore [itemA] "addr" none =
      ({ orders := [orderAS1], order_items := [oiA],
         products := [prodA, prodB], cart_items := [],
         payment_receipts := [] }, Except.ok [orderAS1]) := by
  norm_num [createOrder, processGroups, groupBySeller, insertGrouped,
    applyStockUpdates, stockWrite, mkOrderRow, mkOrderItems, groupTotal,
    jsOrString, benignEnv, envStockFail, baseStore, itemA, prodA, prodB,
    rowA, rowB, orderAS1, oiA, errBoom]
  intro h
  exact absurd h (by decide)

/-- C6 amended: updateOrderStatus and uploadPaymentReceipt fail exactly on
their single write's store error, surfacing the underlying message when the
thrown value is an Error instance and the bare "Failed to X" text otherwise;
createOrder fails only on order-insert or order-item-insert errors — rpc
outcomes, stock-update failures and the cart-delete failure never fail it. -/
theorem C6_error_policy (env : Env) (st : Store) (orderId : Nat)
    (status : String) (uid : String) (url : String) :
    (∀ e, env.updateStatusErr = some e →
      (updateOrderStatus env st orderId status).2 =
        Except.error (catchMessage "Failed to update order status" e)) ∧
    (∀ e, env.insertReceiptErr = some e →
      (uploadPaymentReceipt env (some uid) st orderId url).2 =
        Except.error (catchMessage "Failed to upload receipt" e)) ∧
    ((∀ g, env.insertOrderErr g = none) → (∀ g, env.insertItemsErr g = none) →
      ∀ (cart : List CartItem) (ship : String) (notes : Option String),
        ∃ st' os, createOrder env (some uid) st cart ship notes =
          (st', Except.ok os)) := by
  refine ⟨?_, ?_, ?_⟩
  · intro e he
    simp [updateOrderStatus, he]
  · intro e he
    simp [uploadPaymentReceipt, he]
  · intro hOrd hIt cart ship notes
    obtain ⟨st', hrun, _, _, _⟩ :=
      createOrder_ok_parts env uid st cart ship notes hOrd hIt
    exact ⟨st', _, hrun⟩

/-- Witness for C6's amended claim: a failing status write surfaces "boom". -/
theorem C6_error_policy_witness :
    (updateOrderStatus envStatusFail baseStore 0 "shipped").2 =
      Except.error (catchMessage "Failed to update order status" errBoom) :=
  (C6_error_policy envStatusFail baseStore 0 "shipped" "u" "url").1 errBoom rfl

/-- C7 counterexample: in the spec's S2-failure scenario, ProductA's cart item
is NOT gone — the cart delete is only issued after every group succeeds, so
after S1 committed and S2's order insert failed, rowA is still in the cart. -/
theorem C7_counterexample :
    rowA ∈ (createOrder envFailS2 (some "u") baseStore [itemA, itemB]
      "addr" none).1.cart_items := by decide

/-- C7 amended: with cart [ProductA qty 2 (S1), ProductB qty 1 (S2)] and the
S2 order insert failing after S1's order committed: exactly one order exists
(S1's, with its order item and stock decrement), the caller receives the
error, and the cart still contains BOTH cart items — ProductB's and also
ProductA's. -/
theorem C7_s2_failure_scenario :
    createOrder envFailS2 (some "u") baseStore [itemA, itemB] "addr" none =
      ({ orders := [orderAS1], order_items := [oiA],
         products := [prodA8, prodB], cart_items := [rowA, rowB],
         payment_receipts := [] }, Except.error "boom") := by
  norm_num [createOrder, processGroups, groupBySeller, insertGrouped,
    applyStockUpdates, stockWrite, mkOrderRow, mkOrderItems, groupTotal,
    jsOrString, catchMessage, benignEnv, envFailS2, baseStore, itemA, itemB,
    prodA, prodB, prodA8, rowA, rowB, orderAS1, oiA, errBoom]
  exact ⟨fun h => absurd h (by decide), by decide⟩
